import Mathlib

/-!
Shallow embedding of the lotus conformance tooling (tvx extraction and
replay, and the sector-storage dispatch helpers), together with proofs of
the behavioural claims about it.

Conventions of the embedding:
* content identifiers (CIDs) and tipset keys are modelled as `Nat`;
* byte strings are modelled as `List Nat`;
* Go `error` results are modelled as `Option String` (`none` = nil error)
  or `Except String`;
* external collaborators (the full-node API, the conformance driver, the
  CAR surgeon, the file system) are passed in as explicit function-valued
  parameters, so that a run of an embedded function is a pure value;
* the `log.Printf` calls of the source are pure side effects with no
  bearing on results and are not modelled.
-/

set_option autoImplicit false

namespace Lotus

/-- A block header, carrying the fields that `extractTipset` reads:
its CID, miner address, election-proof win count and parent base fee. -/
structure BlockHeader where
  cid : Nat
  miner : Nat
  winCount : Int
  parentBaseFee : Int
  deriving DecidableEq, Repr

/-- A tipset, carrying the fields the extraction code reads: its key
(`Key()`), height (`Height()`), parent-tipset key (`Parents()`), parent
state root (`ParentState()`) and block headers (`Blocks()`). -/
structure TipSet where
  key : Nat
  height : Int
  parents : Nat
  parentState : Nat
  blocks : List BlockHeader
  deriving DecidableEq, Repr

instance : Inhabited BlockHeader := ⟨⟨0, 0, 0, 0⟩⟩

instance : Inhabited TipSet := ⟨⟨0, 0, 0, 0, []⟩⟩

/-- A record of one successful vector write performed during extraction:
which tipset was extracted and to which path its vector was written. -/
structure Event where
  key : Nat
  height : Int
  path : String
  deriving DecidableEq, Repr

/-- `filepath.Join(dir, "epoch-" + h.String())`: the output path that the
range walker derives from a height. -/
def epochPath (dir : String) (h : Int) : String :=
  dir ++ "/" ++ "epoch-" ++ toString h

/-- One call of `extractTipset` as seen by the walkers: it either writes
one vector at `path` and succeeds, or fails with an error.  The full
interaction with the node API, driver and archive writer is modelled
separately by `extractTipset` below; here it is abstracted into an
error-assigning function `extractErr` so that the walk itself stays
first-order. -/
def runExtract (extractErr : TipSet → String → Option String) (ts : TipSet)
    (path : String) : List Event × Option String :=
  match extractErr ts path with
  | some e => ([], some e)
  | none => ([⟨ts.key, ts.height, path⟩], none)

/-- `extractTipsetRange`: start from the `right` tipset (the cursor
`curr`) and walk back the chain via `ChainGetTipSet(curr.Parents())`
until the `left` tipset, extracting every tipset along the way to
`epoch-<height>` inside `dir`, and finally extracting `left` itself to
`epoch-<height>.json`.  The Go loop has no bound; `fuel` bounds the
recursion, with exhaustion reported as an error, so a run with enough
fuel coincides with a terminating run of the source. -/
def extractTipsetRange (extractErr : TipSet → String → Option String)
    (getTipSet : Nat → Except String TipSet) (left : TipSet) (dir : String) :
    TipSet → Nat → List Event × Option String
  | _, 0 => ([], some "out of fuel")
  | curr, fuel + 1 =>
    if curr.key = left.key then
      runExtract extractErr curr (epochPath dir curr.height ++ ".json")
    else
      match extractErr curr (epochPath dir curr.height) with
      | some e => ([], some ("failed to extract tipset: " ++ e))
      | none =>
        match getTipSet curr.parents with
        | Except.error e => ([⟨curr.key, curr.height, epochPath dir curr.height⟩],
            some ("failed to get tipset: " ++ e))
        | Except.ok parent =>
          let rest := extractTipsetRange extractErr getTipSet left dir parent fuel
          (⟨curr.key, curr.height, epochPath dir curr.height⟩ :: rest.1, rest.2)

/-- Go `strings.Split(s, "..")`: left-to-right, non-overlapping split of
a character list on the two-dot separator. -/
def splitDots : List Char → List (List Char)
  | '.' :: '.' :: rest => [] :: splitDots rest
  | c :: rest =>
    match splitDots rest with
    | [] => [[c]]
    | h :: t => (c :: h) :: t
  | [] => [[]]

/-- `strings.Split(tsk, "..")` lifted to `String`. -/
def splitOnDotDot (s : String) : List String :=
  (splitDots s.data).map (fun cs => String.mk cs)

/-- The options consumed by `doExtractTipset`: the retention strategy,
the tipset-reference string and the destination path. -/
structure ExtractOpts where
  retain : String
  tsk : String
  file : String
  deriving Repr

/-- `doExtractTipset`: validate the retention strategy and the tipset
reference, split the reference on `".."`, and dispatch to single-tipset
extraction (one part) or range extraction (two parts).  Directory
creation for range mode is a file-system effect with no bearing on which
vectors are written and is not modelled. -/
def doExtractTipset (extractErr : TipSet → String → Option String)
    (getTipSet : Nat → Except String TipSet)
    (parseTipSetRef : String → Except String TipSet) (fuel : Nat)
    (opts : ExtractOpts) : List Event × Option String :=
  if opts.retain ≠ "accessed-cids" then
    ([], some "tipset extraction only supports accessed-cids state retention")
  else if opts.tsk = "" then
    ([], some "tipset key cannot be empty")
  else
    match splitOnDotDot opts.tsk with
    | [single] =>
      match parseTipSetRef single with
      | Except.error e => ([], some ("failed to fetch tipset: " ++ e))
      | Except.ok ts => runExtract extractErr ts opts.file
    | [l, r] =>
      match parseTipSetRef l with
      | Except.error e => ([], some ("failed to fetch tipset: " ++ e))
      | Except.ok left =>
        match parseTipSetRef r with
        | Except.error e => ([], some ("failed to fetch tipset: " ++ e))
        | Except.ok right => extractTipsetRange extractErr getTipSet left opts.file right fuel
    | _ => ([], some "unrecognized tipset format")

/-- `ChainTo g left ts` says `ts` is a parent-linked chain whose every
element except the last differs from `left` in key, whose adjacent
elements are linked by a successful `ChainGetTipSet` on the parent key,
and whose last element is (keyed as) `left`.  This is what it means for
`[left, right]` to be a valid range with `ts.head = right`. -/
def ChainTo (g : Nat → Except String TipSet) (left : TipSet) : List TipSet → Prop
  | [] => False
  | [t] => t.key = left.key
  | t :: t' :: ts => t.key ≠ left.key ∧ g t.parents = Except.ok t' ∧
      ChainTo g left (t' :: ts)

/-- The writes that a successful range walk performs on a chain: every
tipset goes to `epoch-<height>` inside `dir`, except the last (the left
endpoint), which goes to `epoch-<height>.json`. -/
def rangeEvents (dir : String) : List TipSet → List Event
  | [] => []
  | [t] => [⟨t.key, t.height, epochPath dir t.height ++ ".json"⟩]
  | t :: t' :: ts => ⟨t.key, t.height, epochPath dir t.height⟩ :: rangeEvents dir (t' :: ts)

/-- `ChainFails g left e ts` says the walk along `ts` stays strictly
before `left` (every key differs from `left.key`), all parent lookups
succeed except the one after the last element, which fails with `e`. -/
def ChainFails (g : Nat → Except String TipSet) (left : TipSet) (e : String) :
    List TipSet → Prop
  | [] => False
  | [t] => t.key ≠ left.key ∧ g t.parents = Except.error e
  | t :: t' :: ts => t.key ≠ left.key ∧ g t.parents = Except.ok t' ∧
      ChainFails g left e (t' :: ts)

/-- The extraction effect in which every per-tipset extraction succeeds. -/
def noExtractFailure : TipSet → String → Option String := fun _ _ => none

theorem extractTipsetRange_on_chain
    (g : Nat → Except String TipSet) (left : TipSet) (dir : String) :
    ∀ (chain : List TipSet) (t : TipSet) (fuel : Nat),
      ChainTo g left (t :: chain) → chain.length < fuel →
      extractTipsetRange noExtractFailure g left dir t fuel =
        (rangeEvents dir (t :: chain), none) := by
  intro chain
  induction chain with
  | nil =>
    intro t fuel hchain hfuel
    match fuel, hfuel with
    | fuel + 1, _ =>
      simp only [ChainTo] at hchain
      simp [extractTipsetRange, hchain, runExtract, rangeEvents, noExtractFailure]
  | cons t' ts ih =>
    intro t fuel hchain hfuel
    match fuel, hfuel with
    | fuel + 1, hfuel =>
      obtain ⟨hne, hlink, hrest⟩ := hchain
      have hfuel' : ts.length < fuel := by
        simpa using Nat.lt_of_succ_lt_succ hfuel
      simp [extractTipsetRange, hne, hlink, ih t' fuel hrest hfuel', rangeEvents, noExtractFailure]

theorem rangeEvents_map_keyHeight (dir : String) :
    ∀ chain : List TipSet,
      (rangeEvents dir chain).map (fun ev => (ev.key, ev.height)) =
        chain.map (fun u => (u.key, u.height))
  | [] => rfl
  | [_] => rfl
  | t :: t' :: ts => by
    simpa [rangeEvents] using rangeEvents_map_keyHeight dir (t' :: ts)

theorem rangeEvents_map_height (dir : String) :
    ∀ chain : List TipSet,
      (rangeEvents dir chain).map Event.height = chain.map TipSet.height
  | [] => rfl
  | [_] => rfl
  | t :: t' :: ts => by
    simpa [rangeEvents] using rangeEvents_map_height dir (t' :: ts)

theorem extractTipsetRange_on_chainFails
    (g : Nat → Except String TipSet) (left : TipSet) (dir : String) (e : String) :
    ∀ (chain : List TipSet) (t : TipSet) (fuel : Nat),
      ChainFails g left e (t :: chain) → chain.length < fuel →
      extractTipsetRange noExtractFailure g left dir t fuel =
        ((t :: chain).map (fun u => ⟨u.key, u.height, epochPath dir u.height⟩),
          some ("failed to get tipset: " ++ e)) := by
  intro chain
  induction chain with
  | nil =>
    intro t fuel hchain hfuel
    match fuel, hfuel with
    | fuel + 1, _ =>
      obtain ⟨hne, hfail⟩ := hchain
      simp [extractTipsetRange, hne, hfail, noExtractFailure]
  | cons t' ts ih =>
    intro t fuel hchain hfuel
    match fuel, hfuel with
    | fuel + 1, hfuel =>
      obtain ⟨hne, hlink, hrest⟩ := hchain
      have hfuel' : ts.length < fuel := by
        simpa using Nat.lt_of_succ_lt_succ hfuel
      simp [extractTipsetRange, hne, hlink, ih t' fuel hrest hfuel', noExtractFailure]

/-- A sample left endpoint used in concrete runs. -/
def sampleLeft : TipSet := ⟨1, 5, 7, 0, []⟩

/-- A sample right endpoint whose parent key points at `sampleLeft`. -/
def sampleRight : TipSet := ⟨2, 6, 1, 0, []⟩

/-- A sample `ChainGetTipSet` knowing only `sampleLeft` (key 1). -/
def sampleGet : Nat → Except String TipSet :=
  fun k => if k = 1 then Except.ok sampleLeft else Except.error "tipset not found"

/-- A sample `ChainGetTipSet` that fails on every lookup. -/
def sampleGetFail : Nat → Except String TipSet :=
  fun _ => Except.error "RPC timeout"

/-- A sample `ParseTipSetRef` resolving `"A"` to `sampleLeft`. -/
def sampleParse : String → Except String TipSet :=
  fun s => if s = "A" then Except.ok sampleLeft else Except.error "bad tipset ref"

/-- C1 (counterexample): the claim says every visited tipset's vector goes
to a path of the form `epoch-<height>` inside the destination directory,
but on the valid one-element range whose endpoints are both `sampleLeft`
the single visited tipset is written to `out/epoch-5.json`, which differs
from `epochPath "out" 5 = "out/epoch-5"`. -/
theorem extractTipsetRange_json_suffix_counterexample :
    extractTipsetRange noExtractFailure sampleGet sampleLeft "out" sampleLeft 1 =
      ([⟨1, 5, "out/epoch-5.json"⟩], none) ∧
    "out/epoch-5.json" ≠ epochPath "out" 5 := by
  constructor
  · rfl
  · decide

/-- C1 (amended): for every valid tipset range, extraction visits exactly
the tipsets of the parent chain from the right endpoint back to the left
endpoint inclusive, in chain order with strictly decreasing heights (hence
each exactly once), writing every tipset except the last to
`epoch-<height>` inside the destination directory and the last (the left
endpoint) to `epoch-<height>.json` there. -/
theorem extractTipsetRange_visits_chain
    (g : Nat → Except String TipSet) (left : TipSet) (dir : String)
    (chain : List TipSet) (t : TipSet) (fuel : Nat)
    (hchain : ChainTo g left (t :: chain)) (hfuel : chain.length < fuel)
    (hdesc : ((t :: chain).map TipSet.height).Pairwise (fun a b => b < a)) :
    extractTipsetRange noExtractFailure g left dir t fuel =
      (rangeEvents dir (t :: chain), none) ∧
    (rangeEvents dir (t :: chain)).map (fun ev => (ev.key, ev.height)) =
      (t :: chain).map (fun u => (u.key, u.height)) ∧
    ((rangeEvents dir (t :: chain)).map Event.height).Pairwise (fun a b => b < a) ∧
    (rangeEvents dir (t :: chain)).Nodup := by
  refine ⟨extractTipsetRange_on_chain g left dir chain t fuel hchain hfuel,
    rangeEvents_map_keyHeight dir (t :: chain), ?_, ?_⟩
  · rw [rangeEvents_map_height]
    exact hdesc
  · have hne : ((rangeEvents dir (t :: chain)).map Event.height).Nodup := by
      rw [rangeEvents_map_height]
      exact hdesc.imp (fun h => (ne_of_gt h))
    exact hne.of_map Event.height

/-- C1 (witness for the amended theorem): the two-element chain
`[sampleRight, sampleLeft]` under `sampleGet` is a valid range, and the
walk writes `sampleRight` to `out/epoch-6` and `sampleLeft` to
`out/epoch-5.json`. -/
theorem extractTipsetRange_visits_chain_witness :
    extractTipsetRange noExtractFailure sampleGet sampleLeft "out" sampleRight 2 =
      (rangeEvents "out" [sampleRight, sampleLeft], none) := by
  exact (extractTipsetRange_visits_chain sampleGet sampleLeft "out" [sampleLeft]
    sampleRight 2 (⟨by decide, rfl, rfl⟩)
    (by decide) (by simp [sampleRight, sampleLeft])).1

/-- C7: if a parent-tipset lookup fails at any step of the walk, the whole
range extraction aborts with an error, and the vectors written are exactly
those of the tipsets visited strictly before the failing lookup — no
further tipsets are extracted and no recovery is attempted. -/
theorem extractTipsetRange_parent_failure_aborts
    (g : Nat → Except String TipSet) (left : TipSet) (dir : String) (e : String)
    (chain : List TipSet) (t : TipSet) (fuel : Nat)
    (hchain : ChainFails g left e (t :: chain)) (hfuel : chain.length < fuel) :
    (extractTipsetRange noExtractFailure g left dir t fuel).2 =
      some ("failed to get tipset: " ++ e) ∧
    (extractTipsetRange noExtractFailure g left dir t fuel).1 =
      (t :: chain).map (fun u => ⟨u.key, u.height, epochPath dir u.height⟩) := by
  have h := extractTipsetRange_on_chainFails g left dir e chain t fuel hchain hfuel
  rw [h]
  exact ⟨rfl, rfl⟩

/-- C7 (witness): with a node client whose every lookup fails, extracting
the range `[sampleLeft, sampleRight]` writes only `sampleRight`'s vector
and aborts with the wrapped lookup error. -/
theorem extractTipsetRange_parent_failure_aborts_witness :
    (extractTipsetRange noExtractFailure sampleGetFail sampleLeft "out" sampleRight 3).2 =
      some ("failed to get tipset: " ++ "RPC timeout") ∧
    (extractTipsetRange noExtractFailure sampleGetFail sampleLeft "out" sampleRight 3).1 =
      [sampleRight].map (fun u => ⟨u.key, u.height, epochPath "out" u.height⟩) := by
  exact extractTipsetRange_parent_failure_aborts sampleGetFail sampleLeft "out"
    "RPC timeout" [] sampleRight 3 (⟨by decide, rfl⟩) (by decide)

/-- C2 (counterexample): the claim says extracting the range `"A..A"`
behaves identically to single-key extraction of `"A"` under the same
output-path convention; concretely, with destination `"out"`, single-key
extraction writes the vector at `"out"` itself, while the range writes it
at `"out/epoch-5.json"` — same tipset, different path convention. -/
theorem doExtractTipset_range_convention_counterexample :
    doExtractTipset noExtractFailure sampleGet sampleParse 2
        ⟨"accessed-cids", "A", "out"⟩ = ([⟨1, 5, "out"⟩], none) ∧
    doExtractTipset noExtractFailure sampleGet sampleParse 2
        ⟨"accessed-cids", "A..A", "out"⟩ = ([⟨1, 5, "out/epoch-5.json"⟩], none) ∧
    ("out" : String) ≠ "out/epoch-5.json" := by
  refine ⟨rfl, rfl, by decide⟩

/-- C2 (amended): extracting the range `"A..A"` (left endpoint equal to
right endpoint) writes exactly one vector, for the very tipset that
single-key extraction of `A` writes, but at path `epoch-<height>.json`
inside the destination directory, whereas single-key extraction writes it
directly at the destination path. -/
theorem doExtractTipset_range_AA
    (g : Nat → Except String TipSet) (parse : String → Except String TipSet)
    (a dest : String) (ts : TipSet) (fuel : Nat)
    (hsingle : splitOnDotDot a = [a])
    (hrange : splitOnDotDot (a ++ ".." ++ a) = [a, a])
    (hparse : parse a = Except.ok ts)
    (ha : a ≠ "") (hfuel : 0 < fuel) :
    doExtractTipset noExtractFailure g parse fuel ⟨"accessed-cids", a ++ ".." ++ a, dest⟩ =
      ([⟨ts.key, ts.height, epochPath dest ts.height ++ ".json"⟩], none) ∧
    doExtractTipset noExtractFailure g parse fuel ⟨"accessed-cids", a, dest⟩ =
      ([⟨ts.key, ts.height, dest⟩], none) := by
  have hne : a ++ ".." ++ a ≠ "" := by
    intro h
    rw [h] at hrange
    have h0 : splitOnDotDot "" = [""] := rfl
    rw [h0] at hrange
    simp at hrange
  constructor
  · match fuel, hfuel with
    | fuel + 1, _ =>
      simp [doExtractTipset, hne, hrange, hparse, extractTipsetRange, runExtract,
        noExtractFailure]
  · simp [doExtractTipset, ha, hsingle, hparse, runExtract, noExtractFailure]

/-- C2 (witness for the amended theorem): concrete runs on the reference
string `"A"` resolving to `sampleLeft`. -/
theorem doExtractTipset_range_AA_witness :
    doExtractTipset noExtractFailure sampleGet sampleParse 2
        ⟨"accessed-cids", "A" ++ ".." ++ "A", "out"⟩ =
      ([⟨sampleLeft.key, sampleLeft.height, epochPath "out" sampleLeft.height ++ ".json"⟩],
        none) ∧
    doExtractTipset noExtractFailure sampleGet sampleParse 2
        ⟨"accessed-cids", "A", "out"⟩ =
      ([⟨sampleLeft.key, sampleLeft.height, "out"⟩], none) :=
  doExtractTipset_range_AA sampleGet sampleParse "A" "out" sampleLeft 2
    (by decide) (by decide) rfl (by decide) (by decide)

/-- The bundle returned by `ChainGetBlockMessages` for one block.  A
message is modelled by its serialized wire bytes (`Serialize` is the
identity in the model, its error path being unreachable for well-formed
in-memory messages). -/
structure BlockMessages where
  blsMessages : List (List Nat)
  secpkMessages : List (List Nat)
  deriving DecidableEq, Repr

/-- `schema.Block`: miner address, election win count, packed serialized
messages. -/
structure SchemaBlock where
  minerAddr : Nat
  winCount : Int
  messages : List (List Nat)
  deriving DecidableEq, Repr

/-- `schema.Tipset`: base fee and blocks (an apply unit). -/
structure SchemaTipset where
  baseFee : Int
  blocks : List SchemaBlock
  deriving DecidableEq, Repr

/-- `schema.Variant`: protocol codename, epoch, network version. -/
structure Variant where
  id : String
  epoch : Int
  networkVersion : Nat
  deriving DecidableEq, Repr

/-- `schema.Preconditions`: declared variants, base fee, pre-state root. -/
structure Preconditions where
  variants : List Variant
  baseFee : Int
  stateTreeRoot : Nat
  deriving DecidableEq, Repr

/-- `schema.Receipt`: exit code, return bytes, gas used. -/
structure Receipt where
  exitCode : Int
  returnValue : List Nat
  gasUsed : Int
  deriving DecidableEq, Repr

/-- `schema.Postconditions`: post-state root, receipts roots, receipts. -/
structure Postconditions where
  stateTreeRoot : Nat
  receiptsRoots : List Nat
  receipts : List Receipt
  deriving DecidableEq, Repr

/-- `schema.TestVector` with the fields the claims read (`Class` is
`cls`; meta generation entries and the randomness log carry no claim and
are elided). -/
structure TestVector where
  cls : String
  metaID : String
  selectorCodename : String
  car : List Nat
  pre : Preconditions
  applyTipsets : List SchemaTipset
  post : Postconditions
  deriving DecidableEq, Repr

/-- `conformance.ExecuteTipsetParams`. -/
structure ExecuteTipsetParams where
  preroot : Nat
  parentEpoch : Int
  tipset : SchemaTipset
  execEpoch : Int
  deriving DecidableEq, Repr

/-- One entry of `result.AppliedResults`: the per-message outcome the
driver reports. -/
structure AppliedResult where
  exitCode : Int
  ret : List Nat
  gasUsed : Int
  deriving DecidableEq, Repr

/-- The result of `driver.ExecuteTipset`. -/
structure ExecuteTipsetResult where
  postStateRoot : Nat
  receiptsRoot : Nat
  appliedResults : List AppliedResult
  deriving DecidableEq, Repr

/-- The arguments of one `WriteCARIncluding` call: the allow-list of
CIDs the walk is constrained to, and the designated roots. -/
structure CarCall where
  allowList : List Nat
  roots : List Nat
  deriving DecidableEq, Repr

/-- The observable steps of the archive-writing section of
`extractTipset`: the CAR was written into the gzip writer, the writer was
flushed, the writer was closed, and the buffer's bytes were taken as the
archive. -/
inductive ArchiveEvent
  | wroteCAR
  | flushed
  | closed
  | tookBytes
  deriving DecidableEq, Repr

/-- The collaborators `extractTipset` interacts with: node API lookups,
the tracing blockstore, the conformance driver, the CAR surgeon, the
gzip writer (whose buffer grows by `flushTail` on `Flush` and by
`closeTail` on `Close`) and the vector persistence step. -/
structure ExtractEnv where
  getBlockMessages : Nat → Except String BlockMessages
  hasTracingStore : Bool
  executeTipset : ExecuteTipsetParams → Except String ExecuteTipsetResult
  tracedCids : List Nat
  writeCARIncluding : CarCall → Option String
  flushErr : Option String
  closeErr : Option String
  partialBytes : List Nat
  flushTail : List Nat
  closeTail : List Nat
  networkVersion : Except String Nat
  clientVersion : Except String String
  networkName : Except String String
  protocolCodename : Int → String
  writeVector : TestVector → String → Option String

/-- The outcome of one `extractTipset` call: the archive-step trace, the
`WriteCARIncluding` call made (if any), and the error or the persisted
vector. -/
structure ExtractOutcome where
  archiveTrace : List ArchiveEvent
  carCall : Option CarCall
  result : Except String TestVector

/-- `ts.Blocks()[0].ParentBaseFee`: the base fee read off the first
block.  A well-formed tipset always carries at least one block (the Go
code indexes `Blocks()[0]` unconditionally); the empty case is given an
arbitrary total value. -/
def headFee : List BlockHeader → Int
  | [] => 0
  | b :: _ => b.parentBaseFee

/-- The per-block loop of `extractTipset`: fetch each block's messages
and pack them (BLS messages first, then secp messages) into a
`schema.Block`. -/
def packBlocks (env : ExtractEnv) : List BlockHeader → Except String (List SchemaBlock)
  | [] => Except.ok []
  | b :: bs =>
    match env.getBlockMessages b.cid with
    | Except.error e => Except.error ("failed to get block messages: " ++ e)
    | Except.ok msgs =>
      match packBlocks env bs with
      | Except.error e => Except.error e
      | Except.ok rest =>
        Except.ok (⟨b.miner, b.winCount, msgs.blsMessages ++ msgs.secpkMessages⟩ :: rest)

/-- `extractTipset`: pack the blocks, require a tracing blockstore,
execute the tipset on the driver, collect the traced CIDs, write the CAR
of the accessed state through the gzip writer (write, flush, close, then
take the buffer), resolve codename/network version/client
version/network name, assemble the `TestVector` and persist it. -/
def extractTipset (env : ExtractEnv) (ts : TipSet) (path : String) : ExtractOutcome :=
  match packBlocks env ts.blocks with
  | Except.error e => ⟨[], none, Except.error e⟩
  | Except.ok blocks =>
    let basefee := headFee ts.blocks
    let tipset : SchemaTipset := ⟨basefee, blocks⟩
    if !env.hasTracingStore then
      ⟨[], none, Except.error
        "requested accessed-cids state retention, but no tracing blockstore was present"⟩
    else
      match env.executeTipset ⟨ts.parentState, ts.height - 1, tipset, ts.height⟩ with
      | Except.error e => ⟨[], none, Except.error ("failed to execute tipset: " ++ e)⟩
      | Except.ok result =>
        let accessed := env.tracedCids
        let call : CarCall := ⟨accessed, [ts.parentState, result.postStateRoot]⟩
        match env.writeCARIncluding call with
        | some e => ⟨[], some call, Except.error e⟩
        | none =>
          match env.flushErr with
          | some e => ⟨[ArchiveEvent.wroteCAR], some call, Except.error e⟩
          | none =>
            match env.closeErr with
            | some e => ⟨[ArchiveEvent.wroteCAR, ArchiveEvent.flushed], some call,
                Except.error e⟩
            | none =>
              let codename := env.protocolCodename ts.height
              match env.networkVersion with
              | Except.error e => ⟨[ArchiveEvent.wroteCAR, ArchiveEvent.flushed,
                  ArchiveEvent.closed], some call, Except.error e⟩
              | Except.ok nv =>
                match env.clientVersion with
                | Except.error e => ⟨[ArchiveEvent.wroteCAR, ArchiveEvent.flushed,
                    ArchiveEvent.closed], some call, Except.error e⟩
                | Except.ok _version =>
                  match env.networkName with
                  | Except.error e => ⟨[ArchiveEvent.wroteCAR, ArchiveEvent.flushed,
                      ArchiveEvent.closed], some call, Except.error e⟩
                  | Except.ok _ntwkName =>
                    let vector : TestVector :=
                      { cls := "tipset"
                        metaID := "@" ++ toString ts.height
                        selectorCodename := codename
                        car := env.partialBytes ++ env.flushTail ++ env.closeTail
                        pre := ⟨[⟨codename, ts.height, nv⟩], basefee, ts.parentState⟩
                        applyTipsets := [tipset]
                        post := ⟨result.postStateRoot, [result.receiptsRoot],
                          result.appliedResults.map
                            (fun r => ⟨r.exitCode, r.ret, r.gasUsed⟩)⟩ }
                    match env.writeVector vector path with
                    | some e => ⟨[ArchiveEvent.wroteCAR, ArchiveEvent.flushed,
                        ArchiveEvent.closed, ArchiveEvent.tookBytes], some call,
                        Except.error e⟩
                    | none => ⟨[ArchiveEvent.wroteCAR, ArchiveEvent.flushed,
                        ArchiveEvent.closed, ArchiveEvent.tookBytes], some call,
                        Except.ok vector⟩

end Lotus

namespace Lotus

theorem extractTipset_carCall_spec (env : ExtractEnv) (ts : TipSet) (path : String)
    (c : CarCall) (h : (extractTipset env ts path).carCall = some c) :
    c.allowList = env.tracedCids ∧
    ∃ p res, env.executeTipset p = Except.ok res ∧ p.preroot = ts.parentState ∧
      p.parentEpoch = ts.height - 1 ∧ p.execEpoch = ts.height ∧
      c.roots = [ts.parentState, res.postStateRoot] := by
  cases hpb : packBlocks env ts.blocks with
  | error e => simp [extractTipset, hpb] at h
  | ok blocks =>
    cases htr : env.hasTracingStore with
    | false => simp [extractTipset, hpb, htr] at h
    | true =>
      cases hex : env.executeTipset ⟨ts.parentState, ts.height - 1,
          ⟨headFee ts.blocks, blocks⟩, ts.height⟩ with
      | error e => simp [extractTipset, hpb, htr, hex] at h
      | ok res =>
        simp only [extractTipset, hpb, htr, hex, Bool.not_true, Bool.false_eq_true,
          if_false] at h
        repeat' split at h
        all_goals
          simp only [Option.some.injEq] at h
          subst h
          exact ⟨rfl, ⟨⟨ts.parentState, ts.height - 1,
            ⟨headFee ts.blocks, blocks⟩, ts.height⟩, res, hex, rfl, rfl, rfl, rfl⟩⟩

end Lotus

namespace Lotus

theorem extractTipset_ok_spec (env : ExtractEnv) (ts : TipSet) (path : String)
    (v : TestVector) (h : (extractTipset env ts path).result = Except.ok v) :
    ∃ blocks res nv,
      packBlocks env ts.blocks = Except.ok blocks ∧
      env.executeTipset ⟨ts.parentState, ts.height - 1, ⟨headFee ts.blocks, blocks⟩,
        ts.height⟩ = Except.ok res ∧
      env.networkVersion = Except.ok nv ∧
      (extractTipset env ts path).carCall =
        some ⟨env.tracedCids, [ts.parentState, res.postStateRoot]⟩ ∧
      (extractTipset env ts path).archiveTrace =
        [ArchiveEvent.wroteCAR, ArchiveEvent.flushed, ArchiveEvent.closed,
          ArchiveEvent.tookBytes] ∧
      v = { cls := "tipset", metaID := "@" ++ toString ts.height,
            selectorCodename := env.protocolCodename ts.height,
            car := env.partialBytes ++ env.flushTail ++ env.closeTail,
            pre := ⟨[⟨env.protocolCodename ts.height, ts.height, nv⟩],
              headFee ts.blocks, ts.parentState⟩,
            applyTipsets := [⟨headFee ts.blocks, blocks⟩],
            post := ⟨res.postStateRoot, [res.receiptsRoot],
              res.appliedResults.map (fun r => ⟨r.exitCode, r.ret, r.gasUsed⟩)⟩ } := by
  cases hpb : packBlocks env ts.blocks with
  | error e => simp [extractTipset, hpb] at h
  | ok blocks =>
    cases htr : env.hasTracingStore with
    | false => simp [extractTipset, hpb, htr] at h
    | true =>
      cases hex : env.executeTipset ⟨ts.parentState, ts.height - 1,
          ⟨headFee ts.blocks, blocks⟩, ts.height⟩ with
      | error e => simp [extractTipset, hpb, htr, hex] at h
      | ok res =>
        refine ⟨blocks, res, ?_⟩
        simp only [extractTipset, hpb, htr, hex, Bool.not_true, Bool.false_eq_true,
          if_false] at h ⊢
        split at h <;> try simp at h
        split at h <;> try simp at h
        split at h <;> try simp at h
        split at h <;> try simp at h
        split at h <;> try simp at h
        split at h <;> try simp at h
        split at h <;> try simp at h
        refine ⟨_, trivial, trivial, by assumption, ?_, ?_, ?_⟩ <;> simp_all

end Lotus

namespace Lotus

theorem extractTipset_trace_spec (env : ExtractEnv) (ts : TipSet) (path : String)
    (h : ArchiveEvent.tookBytes ∈ (extractTipset env ts path).archiveTrace) :
    (extractTipset env ts path).archiveTrace =
      [ArchiveEvent.wroteCAR, ArchiveEvent.flushed, ArchiveEvent.closed,
        ArchiveEvent.tookBytes] := by
  cases hpb : packBlocks env ts.blocks with
  | error e => simp [extractTipset, hpb] at h
  | ok blocks =>
    cases htr : env.hasTracingStore with
    | false => simp [extractTipset, hpb, htr] at h
    | true =>
      cases hex : env.executeTipset ⟨ts.parentState, ts.height - 1,
          ⟨headFee ts.blocks, blocks⟩, ts.height⟩ with
      | error e => simp [extractTipset, hpb, htr, hex] at h
      | ok res =>
        simp only [extractTipset, hpb, htr, hex, Bool.not_true, Bool.false_eq_true,
          if_false] at h ⊢
        split at h <;> try simp at h
        split at h <;> try simp at h
        split at h <;> try simp at h
        split at h <;> try simp at h
        split at h <;> try simp at h
        split at h <;> try simp at h
        split at h <;> try simp at h
        all_goals simp_all

def sampleAppliedResults : List AppliedResult := [⟨0, [1], 100⟩, ⟨0, [], 50⟩]

def sampleExecResult : ExecuteTipsetResult := ⟨11, 12, sampleAppliedResults⟩

/-- A sample block header: cid 21, miner 31, win count 1, base fee 77. -/
def sampleBlockB : BlockHeader := ⟨21, 31, 1, 77⟩

/-- A sample tipset with one block, used for extraction runs. -/
def sampleExtractTs : TipSet := ⟨2, 6, 1, 10, [sampleBlockB]⟩

/-- A sample environment in which every collaborator succeeds: one block
with one BLS and one secp message, a tracing store that traced CIDs
`[10, 11, 42]`, an execution producing post root 11, receipts root 12 and
two applied results. -/
def sampleEnv : ExtractEnv :=
  { getBlockMessages := fun _ => Except.ok ⟨[[1, 2]], [[3, 4]]⟩
    hasTracingStore := true
    executeTipset := fun _ => Except.ok sampleExecResult
    tracedCids := [10, 11, 42]
    writeCARIncluding := fun _ => none
    flushErr := none
    closeErr := none
    partialBytes := [5, 5]
    flushTail := [6]
    closeTail := [7]
    networkVersion := Except.ok 14
    clientVersion := Except.ok "lotus"
    networkName := Except.ok "mainnet"
    protocolCodename := fun _ => "breeze"
    writeVector := fun _ _ => none }

/-- The vector `extractTipset sampleEnv sampleExtractTs` persists. -/
def sampleVector : TestVector :=
  { cls := "tipset", metaID := "@6", selectorCodename := "breeze"
    car := [5, 5, 6, 7]
    pre := ⟨[⟨"breeze", 6, 14⟩], 77, 10⟩
    applyTipsets := [⟨77, [⟨31, 1, [[1, 2], [3, 4]]⟩]⟩]
    post := ⟨11, [12], [⟨0, [1], 100⟩, ⟨0, [], 50⟩]⟩ }

/-- C3: the archive written during tipset extraction is produced by a
`WriteCARIncluding` walk constrained to exactly the allow-list of CIDs
traced during that execution, and always designates exactly the
pre-execution state root and the post-execution state root as roots; in
particular a successfully persisted vector's archive call designates the
vector's own pre- and post-state roots. -/
theorem extractTipset_archive_allowlist_and_roots (env : ExtractEnv) (ts : TipSet)
    (path : String) :
    (∀ c, (extractTipset env ts path).carCall = some c →
      c.allowList = env.tracedCids ∧
      ∃ p res, env.executeTipset p = Except.ok res ∧ p.preroot = ts.parentState ∧
        c.roots = [ts.parentState, res.postStateRoot]) ∧
    (∀ v, (extractTipset env ts path).result = Except.ok v →
      (extractTipset env ts path).carCall =
        some ⟨env.tracedCids, [v.pre.stateTreeRoot, v.post.stateTreeRoot]⟩) := by
  constructor
  · intro c hc
    obtain ⟨h1, p, res, hez, hp, _, _, hroots⟩ :=
      extractTipset_carCall_spec env ts path c hc
    exact ⟨h1, p, res, hez, hp, hroots⟩
  · intro v hv
    obtain ⟨blocks, res, nv, hpb, hex, hnv, hca, htrace, hveq⟩ :=
      extractTipset_ok_spec env ts path v hv
    subst hveq
    simpa using hca

/-- C3 (witness): in the all-success sample run the archive call is made
with allow-list `[10, 11, 42]` and roots `[10, 11]` — the pre-state root
of `sampleExtractTs` and the post-state root of the execution. -/
theorem extractTipset_archive_allowlist_and_roots_witness :
    (extractTipset sampleEnv sampleExtractTs "p").carCall =
      some ⟨[10, 11, 42], [10, 11]⟩ :=
  (extractTipset_archive_allowlist_and_roots sampleEnv sampleExtractTs "p").2
    sampleVector rfl

/-- C4: a vector persisted by single-tipset extraction has `applyTipsets`
of length 1, exactly one declared variant whose epoch equals the tipset's
height, and one receipt per applied message in application order (its
`post.receipts` is the elementwise image of the execution's
`AppliedResults`). -/
theorem extractTipset_vector_shape (env : ExtractEnv) (ts : TipSet) (path : String)
    (v : TestVector) (h : (extractTipset env ts path).result = Except.ok v) :
    v.applyTipsets.length = 1 ∧
    v.pre.variants.length = 1 ∧
    (∀ varnt ∈ v.pre.variants, varnt.epoch = ts.height) ∧
    ∃ p res, env.executeTipset p = Except.ok res ∧ p.execEpoch = ts.height ∧
      v.post.receipts = res.appliedResults.map
        (fun r => ⟨r.exitCode, r.ret, r.gasUsed⟩) := by
  obtain ⟨blocks, res, nv, hpb, hex, hnv, hca, htrace, hveq⟩ :=
    extractTipset_ok_spec env ts path v h
  subst hveq
  refine ⟨rfl, rfl, ?_, ⟨_, res, hex, rfl, rfl⟩⟩
  intro varnt hvar
  simp only [List.mem_singleton] at hvar
  subst hvar
  rfl

/-- C4 (witness): the sample extraction persists `sampleVector`, which
has one apply tipset, one variant at epoch 6 and two receipts mapping
the two applied results. -/
theorem extractTipset_vector_shape_witness :
    sampleVector.applyTipsets.length = 1 ∧
    sampleVector.pre.variants.length = 1 ∧
    (∀ varnt ∈ sampleVector.pre.variants, varnt.epoch = sampleExtractTs.height) ∧
    ∃ p res, sampleEnv.executeTipset p = Except.ok res ∧
      p.execEpoch = sampleExtractTs.height ∧
      sampleVector.post.receipts = res.appliedResults.map
        (fun r => ⟨r.exitCode, r.ret, r.gasUsed⟩) :=
  extractTipset_vector_shape sampleEnv sampleExtractTs "p" sampleVector rfl

/-- C8: on every exit path of the archive-writing step, the buffer is
taken as the valid archive bytes only after the gzip writer was flushed
and then closed (whenever `tookBytes` is in the trace, the trace is
exactly write, flush, close, take); and a persisted vector always embeds
the fully flushed-and-closed buffer contents — never a partial,
unflushed prefix. -/
theorem extractTipset_gzip_flush_close (env : ExtractEnv) (ts : TipSet)
    (path : String) :
    (ArchiveEvent.tookBytes ∈ (extractTipset env ts path).archiveTrace →
      (extractTipset env ts path).archiveTrace =
        [ArchiveEvent.wroteCAR, ArchiveEvent.flushed, ArchiveEvent.closed,
          ArchiveEvent.tookBytes]) ∧
    (∀ v, (extractTipset env ts path).result = Except.ok v →
      ArchiveEvent.tookBytes ∈ (extractTipset env ts path).archiveTrace ∧
      v.car = env.partialBytes ++ env.flushTail ++ env.closeTail) := by
  constructor
  · exact extractTipset_trace_spec env ts path
  · intro v hv
    obtain ⟨blocks, res, nv, hpb, hex, hnv, hca, htrace, hveq⟩ :=
      extractTipset_ok_spec env ts path v hv
    subst hveq
    rw [htrace]
    exact ⟨by simp, rfl⟩

/-- C8 (witness): in the all-success sample run the bytes are taken and
the trace is exactly write, flush, close, take. -/
theorem extractTipset_gzip_flush_close_witness :
    (extractTipset sampleEnv sampleExtractTs "p").archiveTrace =
      [ArchiveEvent.wroteCAR, ArchiveEvent.flushed, ArchiveEvent.closed,
        ArchiveEvent.tookBytes] :=
  (extractTipset_gzip_flush_close sampleEnv sampleExtractTs "p").1 (by decide)

end Lotus

namespace Lotus

/-- The outcome of `executeTestVector`: the (last) error, the (last)
diff list, and the trace of `(execution path, variant)` dispatches
actually performed. -/
structure ReplayOutcome where
  err : Option String
  diffs : List String
  executed : List (String × Variant)
  deriving DecidableEq, Repr

/-- The variant loop of `executeTestVector`: for each declared variant,
switch on the vector's class and run the matching execution path,
overwriting the loop-carried `err`/`diffs` with this iteration's result;
an unsupported class returns immediately with a hard error and nil
diffs.  (`r.Failed()` only drives logging and is not modelled.) -/
def execVariants (execMessage execTipset : TestVector → Variant → Option String × List String)
    (tv : TestVector) : List Variant → Option String → List String → ReplayOutcome
  | [], err, diffs => ⟨err, diffs, []⟩
  | v :: vs, _, _ =>
    if tv.cls = "message" then
      let r := execMessage tv v
      let rest := execVariants execMessage execTipset tv vs r.1 r.2
      ⟨rest.err, rest.diffs, ("message", v) :: rest.executed⟩
    else if tv.cls = "tipset" then
      let r := execTipset tv v
      let rest := execVariants execMessage execTipset tv vs r.1 r.2
      ⟨rest.err, rest.diffs, ("tipset", v) :: rest.executed⟩
    else
      ⟨some ("test vector class " ++ tv.cls ++ " not supported"), [], []⟩

/-- `executeTestVector`: iterate over the declared variants of the
vector's preconditions with initially-nil `err`/`diffs`. -/
def executeTestVector (execMessage execTipset : TestVector → Variant → Option String × List String)
    (tv : TestVector) : ReplayOutcome :=
  execVariants execMessage execTipset tv tv.pre.variants none []

theorem execVariants_executed_message
    (em et : TestVector → Variant → Option String × List String) (tv : TestVector)
    (hcls : tv.cls = "message") :
    ∀ (vs : List Variant) (err : Option String) (diffs : List String),
      (execVariants em et tv vs err diffs).executed =
        vs.map (fun v => ("message", v))
  | [], _, _ => rfl
  | v :: vs, err, diffs => by
    simp [execVariants, hcls,
      execVariants_executed_message em et tv hcls vs (em tv v).1 (em tv v).2]

theorem execVariants_executed_tipset
    (em et : TestVector → Variant → Option String × List String) (tv : TestVector)
    (hcls : tv.cls = "tipset") :
    ∀ (vs : List Variant) (err : Option String) (diffs : List String),
      (execVariants em et tv vs err diffs).executed =
        vs.map (fun v => ("tipset", v))
  | [], _, _ => rfl
  | v :: vs, err, diffs => by
    simp [execVariants, hcls,
      execVariants_executed_tipset em et tv hcls vs (et tv v).1 (et tv v).2]

theorem execVariants_append_message
    (em et : TestVector → Variant → Option String × List String) (tv : TestVector)
    (hcls : tv.cls = "message") :
    ∀ (vs : List Variant) (vlast : Variant) (err : Option String) (diffs : List String),
      (execVariants em et tv (vs ++ [vlast]) err diffs).err = (em tv vlast).1 ∧
      (execVariants em et tv (vs ++ [vlast]) err diffs).diffs = (em tv vlast).2
  | [], vlast, err, diffs => by simp [execVariants, hcls]
  | v :: vs, vlast, err, diffs => by
    have ih := execVariants_append_message em et tv hcls vs vlast (em tv v).1 (em tv v).2
    simp [execVariants, hcls, ih.1, ih.2]

theorem execVariants_append_tipset
    (em et : TestVector → Variant → Option String × List String) (tv : TestVector)
    (hcls : tv.cls = "tipset") :
    ∀ (vs : List Variant) (vlast : Variant) (err : Option String) (diffs : List String),
      (execVariants em et tv (vs ++ [vlast]) err diffs).err = (et tv vlast).1 ∧
      (execVariants em et tv (vs ++ [vlast]) err diffs).diffs = (et tv vlast).2
  | [], vlast, err, diffs => by simp [execVariants, hcls]
  | v :: vs, vlast, err, diffs => by
    have ih := execVariants_append_tipset em et tv hcls vs vlast (et tv v).1 (et tv v).2
    simp [execVariants, hcls, ih.1, ih.2]

/-- An execution path that always reports an error and a diff. -/
def sampleExecFn : TestVector → Variant → Option String × List String :=
  fun _ _ => (some "boom", ["diff"])

/-- An execution path whose result names the variant it ran. -/
def taggedExecFn : TestVector → Variant → Option String × List String :=
  fun _ v => (some ("err-" ++ v.id), ["diff-" ++ v.id])

/-- A vector of an unsupported class with no declared variants. -/
def tvBogus : TestVector :=
  { cls := "bogus", metaID := "x", selectorCodename := ""
    car := [], pre := ⟨[], 0, 0⟩, applyTipsets := [], post := ⟨0, [], []⟩ }

/-- A message-class vector declaring two variants. -/
def tvMsg : TestVector :=
  { cls := "message", metaID := "y", selectorCodename := ""
    car := [], pre := ⟨[⟨"a", 1, 1⟩, ⟨"b", 2, 2⟩], 0, 0⟩
    applyTipsets := [], post := ⟨0, [], []⟩ }

/-- C5 (counterexample): the claim says an unsupported vector class is a
hard input error, but on a vector of class `"bogus"` with zero declared
variants `executeTestVector` returns a nil error (the class is only
inspected inside the per-variant loop). -/
theorem executeTestVector_unsupported_class_counterexample :
    tvBogus.cls ≠ "message" ∧ tvBogus.cls ≠ "tipset" ∧
    executeTestVector sampleExecFn sampleExecFn tvBogus = ⟨none, [], []⟩ :=
  ⟨by decide, by decide, rfl⟩

/-- C5 (amended): replay dispatches each declared variant, in order, by
the vector's class to the matching execution path (`"message"` or
`"tipset"`), and one variant's failure never blocks the evaluation of
the remaining variants (the dispatch trace covers every declared variant
whatever the per-variant results are); any other class is a hard input
error whenever at least one variant is declared — with zero declared
variants the class is never inspected and no error is raised. -/
theorem executeTestVector_dispatch
    (em et : TestVector → Variant → Option String × List String) (tv : TestVector) :
    (tv.cls = "message" →
      (executeTestVector em et tv).executed =
        tv.pre.variants.map (fun v => ("message", v))) ∧
    (tv.cls = "tipset" →
      (executeTestVector em et tv).executed =
        tv.pre.variants.map (fun v => ("tipset", v))) ∧
    (tv.cls ≠ "message" → tv.cls ≠ "tipset" → tv.pre.variants ≠ [] →
      (executeTestVector em et tv).err =
        some ("test vector class " ++ tv.cls ++ " not supported")) := by
  refine ⟨fun h => execVariants_executed_message em et tv h _ none [],
    fun h => execVariants_executed_tipset em et tv h _ none [], ?_⟩
  intro hm ht hne
  cases hv : tv.pre.variants with
  | nil => exact absurd hv hne
  | cons v vs =>
    unfold executeTestVector
    rw [hv]
    simp [execVariants, hm, ht]

/-- C5 (witness for the amended theorem): on the two-variant
message-class vector, with an execution path that always fails, every
declared variant is still dispatched to the message path, in order. -/
theorem executeTestVector_dispatch_witness :
    (executeTestVector sampleExecFn sampleExecFn tvMsg).executed =
      tvMsg.pre.variants.map (fun v => ("message", v)) :=
  (executeTestVector_dispatch sampleExecFn sampleExecFn tvMsg).1 rfl

/-- C9: `executeTestVector` returns the error and diff list of only the
last variant it processed — results of earlier variants are overwritten
by later iterations — and on a supported-class vector with zero declared
variants it returns nil error and nil diffs with nothing executed. -/
theorem executeTestVector_last_result
    (em et : TestVector → Variant → Option String × List String) (tv : TestVector) :
    ((tv.cls = "message" ∨ tv.cls = "tipset") → tv.pre.variants = [] →
      executeTestVector em et tv = ⟨none, [], []⟩) ∧
    (∀ vs vlast, tv.pre.variants = vs ++ [vlast] →
      (tv.cls = "message" →
        (executeTestVector em et tv).err = (em tv vlast).1 ∧
        (executeTestVector em et tv).diffs = (em tv vlast).2) ∧
      (tv.cls = "tipset" →
        (executeTestVector em et tv).err = (et tv vlast).1 ∧
        (executeTestVector em et tv).diffs = (et tv vlast).2)) := by
  constructor
  · intro _ hv
    unfold executeTestVector
    rw [hv]
    rfl
  · intro vs vlast hv
    constructor
    · intro hcls
      unfold executeTestVector
      rw [hv]
      exact execVariants_append_message em et tv hcls vs vlast none []
    · intro hcls
      unfold executeTestVector
      rw [hv]
      exact execVariants_append_tipset em et tv hcls vs vlast none []

/-- C9 (witness): on the two-variant message-class vector with a tagged
execution path, the returned error and diffs are those of the second
(last) variant `"b"`. -/
theorem executeTestVector_last_result_witness :
    (executeTestVector taggedExecFn taggedExecFn tvMsg).err = some ("err-" ++ "b") ∧
    (executeTestVector taggedExecFn taggedExecFn tvMsg).diffs = ["diff-" ++ "b"] :=
  ((executeTestVector_last_result taggedExecFn taggedExecFn tvMsg).2
    [⟨"a", 1, 1⟩] ⟨"b", 2, 2⟩ rfl).1 rfl

end Lotus

namespace Lotus

/-- Splitting a character list on the path separator, left to right
(auxiliary to `filepath.Base` and `filepath.Ext`). -/
def splitSlash : List Char → List (List Char)
  | [] => [[]]
  | c :: rest =>
    if c = '/' then [] :: splitSlash rest
    else
      match splitSlash rest with
      | [] => [[c]]
      | h :: t => (c :: h) :: t

/-- Splitting a character list on the dot, left to right (auxiliary to
`filepath.Ext`). -/
def splitDot : List Char → List (List Char)
  | [] => [[]]
  | c :: rest =>
    if c = '.' then [] :: splitDot rest
    else
      match splitDot rest with
      | [] => [[c]]
      | h :: t => (c :: h) :: t

/-- `filepath.Base`: the last path component (modelled for the
separator-terminated-free paths `filepath.Glob` produces). -/
def baseName (p : String) : String :=
  String.mk ((splitSlash p.data).getLastD [])

/-- `filepath.Ext`: the suffix of the last path component starting at
its final dot, empty when the component has no dot. -/
def extName (p : String) : String :=
  match splitDot (baseName p).data with
  | [] => ""
  | [_] => ""
  | parts => String.mk ('.' :: parts.getLastD [])

/-- `strings.TrimSuffix`: drop `suffix` from the end of `s` when `s`
ends with it, otherwise return `s` unchanged. -/
def trimSuffix (s suffix : String) : String :=
  if suffix.data.length ≤ s.data.length ∧
      s.data.drop (s.data.length - suffix.data.length) = suffix.data then
    String.mk (s.data.take (s.data.length - suffix.data.length))
  else s

/-- `strings.TrimSuffix(filepath.Base(f), filepath.Ext(f)) + ".out"`:
the per-input report file name used by directory-batch replay. -/
def outFileName (f : String) : String :=
  trimSuffix (baseName f) (extName f) ++ ".out"

/-- The collaborators of `execVectorDir`: the glob of the input
directory, output-file creation, and the per-file vector run
(`execVectorFile`), whose result the batch loop discards. -/
structure DirEnv where
  glob : Except String (List String)
  create : String → Option String
  runVector : String → Option String × List String

/-- The file loop of `execVectorDir`: derive each input's report path,
create it, tee the log into it, run the vector file and ignore its
result, then continue with the next file. -/
def execVectorDirLoop (env : DirEnv) (outdir : String) :
    List String → List (String × String) × Option String
  | [] => ([], none)
  | f :: fs =>
    let outpath := outdir ++ "/" ++ outFileName f
    match env.create outpath with
    | some e => ([], some ("failed to create file " ++ outpath ++ ": " ++ e))
    | none =>
      let _ := env.runVector f
      let rest := execVectorDirLoop env outdir fs
      ((f, outpath) :: rest.1, rest.2)

/-- `execVectorDir`: glob the input directory and process every file,
returning the list of `(input, report path)` pairs processed and the
final error. -/
def execVectorDir (env : DirEnv) (path outdir : String) :
    List (String × String) × Option String :=
  match env.glob with
  | Except.error _ => ([], some ("failed to glob input directory " ++ path))
  | Except.ok files => execVectorDirLoop env outdir files

theorem execVectorDirLoop_all_processed (env : DirEnv) (outdir : String)
    (hcreate : ∀ p, env.create p = none) :
    ∀ files : List String,
      execVectorDirLoop env outdir files =
        (files.map (fun f => (f, outdir ++ "/" ++ outFileName f)), none)
  | [] => rfl
  | f :: fs => by
    simp [execVectorDirLoop, hcreate,
      execVectorDirLoop_all_processed env outdir hcreate fs]

/-- C6: when replaying a directory of vector files (with a writable
output directory), every input file is processed with its own report at
the input's base name with its extension replaced by `.out` inside the
output directory, and the loop finishes with no error irrespective of
the per-vector results — a failing vector (e.g. malformed JSON) never
aborts the processing of the remaining vectors. -/
theorem execVectorDir_failures_isolated (env : DirEnv) (path outdir : String)
    (files : List String) (hglob : env.glob = Except.ok files)
    (hcreate : ∀ p, env.create p = none) :
    execVectorDir env path outdir =
      (files.map (fun f => (f, outdir ++ "/" ++ outFileName f)), none) := by
  unfold execVectorDir
  rw [hglob]
  exact execVectorDirLoop_all_processed env outdir hcreate files

/-- A three-file batch in which the middle vector fails to decode. -/
def sampleDirEnv : DirEnv :=
  { glob := Except.ok ["in/a.json", "in/b.json", "in/c.json"]
    create := fun _ => none
    runVector := fun f =>
      if f = "in/b.json" then (some "failed to decode test vector", []) else (none, []) }

/-- C6 (witness): the three-file batch with one malformed vector still
produces the three reports `a.out`, `b.out`, `c.out` and no batch
error. -/
theorem execVectorDir_failures_isolated_witness :
    execVectorDir sampleDirEnv "in" "out" =
      ([("in/a.json", "out/a.out"), ("in/b.json", "out/b.out"),
        ("in/c.json", "out/c.out")], none) :=
  (execVectorDir_failures_isolated sampleDirEnv "in" "out"
    ["in/a.json", "in/b.json", "in/c.json"] rfl (fun _ => rfl)).trans (by decide)

/-- `SealPreCommitResp`: the fields `GetCids` reads. -/
structure SealPreCommitResp where
  errCode : Int
  commR : List Nat
  commD : List Nat
  deriving DecidableEq, Repr

/-- `storage.SectorCids`; its zero value is `⟨0, 0⟩` (two undefined
CIDs). -/
structure SectorCids where
  unsealed : Nat
  sealed : Nat
  deriving DecidableEq, Repr

/-- `SealPreCommitResp.GetCids`: convert `CommR` bytes to the replica
commitment CID, returning its error on failure; then convert `CommD`
bytes to the data commitment CID — but on failure of that second
conversion the source returns `errCommrSize` (the error of the *first*
conversion, necessarily nil at this point) rather than `errCommdSize`.
The two converters return Go-style `(cid, error)` pairs. -/
def GetCids (replicaCommitmentV1ToCID dataCommitmentV1ToCID : List Nat → Nat × Option String)
    (resp : SealPreCommitResp) : SectorCids × Option String :=
  let r1 := replicaCommitmentV1ToCID resp.commR
  let commR := r1.1
  let errCommrSize := r1.2
  if errCommrSize.isSome then (⟨0, 0⟩, errCommrSize)
  else
    let r2 := dataCommitmentV1ToCID resp.commD
    let commD := r2.1
    let errCommdSize := r2.2
    if errCommdSize.isSome then (⟨0, 0⟩, errCommrSize)
    else (⟨commD, commR⟩, none)

/-- C10: when the `CommR` conversion succeeds and the `CommD` conversion
fails, `GetCids` returns the zero `SectorCids` together with a nil
error, silently swallowing the `CommD` conversion failure. -/
theorem GetCids_swallows_commd_error
    (replicaConv dataConv : List Nat → Nat × Option String) (resp : SealPreCommitResp)
    (commR commD : Nat) (e : String)
    (hr : replicaConv resp.commR = (commR, none))
    (hd : dataConv resp.commD = (commD, some e)) :
    GetCids replicaConv dataConv resp = (⟨0, 0⟩, none) := by
  simp [GetCids, hr, hd]

/-- A replica-commitment conversion that succeeds with CID 9. -/
def sampleReplicaConv : List Nat → Nat × Option String := fun _ => (9, none)

/-- A data-commitment conversion that always fails. -/
def sampleDataConv : List Nat → Nat × Option String :=
  fun _ => (0, some "commitment too short")

/-- A sample seal-pre-commit response. -/
def sampleResp : SealPreCommitResp := ⟨0, [1, 2], [3]⟩

/-- C10 (witness): with a succeeding CommR conversion and a failing
CommD conversion, `GetCids` reports no error. -/
theorem GetCids_swallows_commd_error_witness :
    GetCids sampleReplicaConv sampleDataConv sampleResp = (⟨0, 0⟩, none) :=
  GetCids_swallows_commd_error sampleReplicaConv sampleDataConv sampleResp
    9 0 "commitment too short" rfl rfl

end Lotus
